import Mathlib

/-!
Verification development for the Ethereum message-signing pipeline
(`app_eth_sign_msg` in `src/apps/eth/eth_sign_msg.c`).

The C function is shallowly embedded as a pure Lean function over byte
lists (`List Nat`, each element a byte value).  External collaborators
(address derivation, the user-confirmation workflow, the keystore) are
modelled as an explicit environment of functions, and the run records a
trace of the observable interactions so that temporal properties
("the keystore is never invoked", "no prompt is shown") can be stated.
-/

set_option maxRecDepth 4000

/-- Bytes of an ASCII string. -/
def strBytes (s : String) : List Nat := s.toList.map Char.toNat

/-- The single supported coin, `ETHCoin_ETH` (protobuf enum value 0). -/
def ETHCoin_ETH : Nat := 0

/-- The `msg_header` constant: `"\x19" "Ethereum Signed Message:\n"` (26 bytes). -/
def msg_header : List Nat := 0x19 :: strBytes "Ethereum Signed Message:\n"

/-- Fuel-driven helper for `decBytes` (structural recursion so that the
kernel can evaluate it; the fuel is enough for any number of digits). -/
def decBytesAux : Nat → Nat → List Nat
  | 0, _ => []
  | fuel + 1, n =>
    if n < 10 then [48 + n] else decBytesAux fuel (n / 10) ++ [48 + n % 10]

/-- Decimal ASCII rendering of a natural number, as produced by the
`%d` conversion of `snprintf` for a nonnegative value. -/
def decBytes (n : Nat) : List Nat := decBytesAux (n + 1) n

/-- `payload_offset`: the value returned by
`snprintf(msg, sizeof(msg), "%s%d", msg_header, request->msg.size)`,
i.e. the number of characters written before the payload (no truncation
occurs, see `payload_offset_le`). -/
def payload_offset (size : Nat) : Nat := msg_header.length + (decBytes size).length

/-- Capacity of the preimage buffer:
`char msg[sizeof(msg_header) - 1 + sizeof(request->msg.bytes) + 4]`,
that is 26 + 1024 + 4 bytes. -/
def msgBufCapacity : Nat := 26 + 1024 + 4

/-- The used portion of the preimage buffer after
`snprintf("%s%d", msg_header, size)` followed by
`memcpy(&msg[payload_offset], bytes, size)`. -/
def preimageOf (msg : List Nat) : List Nat :=
  msg_header ++ decBytes msg.length ++ msg

/-- The `all_ascii` flag, translated from the loop
`for i: if (bytes[i] < 20 || bytes[i] > 127) all_ascii = false;`. -/
def all_ascii (msg : List Nat) : Bool :=
  msg.foldl (fun acc b => if b < 20 || 127 < b then false else acc) true

/-- Modelled from the spec: `util_uint8_to_hex` (from `util.c`, not part of
the sources here) renders bytes as lowercase hexadecimal digit characters. -/
def hexDigitChar (n : Nat) : Nat := if n < 10 then 48 + n else 87 + n

/-- Modelled from the spec: hex encoding of a byte, two characters. -/
def byteToHexChars (b : Nat) : List Nat :=
  [hexDigitChar (b / 16 % 16), hexDigitChar (b % 16)]

/-- Modelled from the spec: `util_uint8_to_hex` over a byte list. -/
def util_uint8_to_hex (l : List Nat) : List Nat := (l.map byteToHexChars).flatten

/-- The three-dot ellipsis `"..."`. -/
def ellipsisBytes : List Nat := [46, 46, 46]

/-- Capacity of the summary body buffer `char body[64 + 3 + 1]`. -/
def bodyBufCapacity : Nat := 64 + 3 + 1

/-- Content of the summary `body` buffer (excluding the final
null terminator), translated branch by branch from the C builder. -/
def bodyOf (msg : List Nat) : List Nat :=
  if all_ascii msg = true ∧ msg.length > 67 then
    msg.take 32 ++ ellipsisBytes ++ msg.drop (msg.length - 32)
  else if all_ascii msg = false ∧ msg.length > 33 then
    util_uint8_to_hex (msg.take 16) ++ ellipsisBytes ++
      util_uint8_to_hex (msg.drop (msg.length - 16))
  else if all_ascii msg = true then
    msg
  else
    util_uint8_to_hex msg

/-- The confirmation title: plain for printable payloads, `"(hex)"`-suffixed
for binary ones. -/
def titleOf (msg : List Nat) : List Nat :=
  if all_ascii msg = true then strBytes "Sign\nETH Message"
  else strBytes "Sign\nETH Message (hex)"

/-! ## Keccak-256

Modelled from the spec: the hash primitive (`rhash_sha3_256_init` /
`rhash_sha3_update` / `rhash_keccak_final` from the rhash library, not part
of the sources here) is the original Keccak-256: sponge with rate 136,
24-round Keccak-f[1600], and the legacy multi-rate padding whose domain
byte is `0x01` (the standardized SHA3-256 instead pads with `0x06`). -/

/-- 2^64, the lane modulus. -/
def two64 : Nat := 18446744073709551616

/-- 64-bit left rotation. -/
def rotl64 (x n : Nat) : Nat :=
  ((x <<< (n % 64)) ||| (x >>> (64 - n % 64))) % two64

/-- Lane `(x, y)` of a 25-lane state (row-major: index `x + 5y`). -/
def getLane (s : List Nat) (x y : Nat) : Nat := s.getD (x % 5 + 5 * (y % 5)) 0

/-- Keccak θ step. -/
def keccakTheta (s : List Nat) : List Nat :=
  let c := (List.range 5).map fun x =>
    getLane s x 0 ^^^ getLane s x 1 ^^^ getLane s x 2 ^^^ getLane s x 3 ^^^ getLane s x 4
  let d := (List.range 5).map fun x =>
    (c.getD ((x + 4) % 5) 0) ^^^ rotl64 (c.getD ((x + 1) % 5) 0) 1
  (List.range 25).map fun i => (s.getD i 0) ^^^ (d.getD (i % 5) 0)

/-- Keccak ρ rotation offsets, packed six bits per lane in lane order
`x + 5y` (decoded by `rhoOffset`). -/
def rhoPacked : Nat :=
  332055894658593304689340699888832964872888384

/-- The ρ rotation offset of lane `i`. -/
def rhoOffset (i : Nat) : Nat := (rhoPacked >>> (6 * i)) &&& 63

/-- Combined Keccak ρ and π steps:
`B[x, y] = rotl(A[(x + 3y) % 5, x], r[(x + 3y) % 5, x])`. -/
def keccakRhoPi (s : List Nat) : List Nat :=
  (List.range 25).map fun i =>
    let x := i % 5
    let y := i / 5
    let xa := (x + 3 * y) % 5
    rotl64 (getLane s xa x) (rhoOffset (xa + 5 * x))

/-- Keccak χ step. -/
def keccakChi (s : List Nat) : List Nat :=
  (List.range 25).map fun i =>
    let x := i % 5
    let y := i / 5
    (getLane s x y) ^^^ (((getLane s (x + 1) y) ^^^ (two64 - 1)) &&& (getLane s (x + 2) y))

/-- The 24 Keccak-f[1600] round constants, packed 64 bits per round into a
single numeral (decoded by `keccakRC`). -/
def rcPacked : Nat :=
  1205156213741117873793801653457646400354853640482554026796672552495827838021945262822995764188561208695010071872196002285438437705146918003581293676425490408196988879047816488244448921592893967204206317729165368965676751063758348017780551146722183778533850742993063670864647452380866254670587364680601677224368845814151339748009155989595816859296091634812222296788154661739837852576395622987138453341300190117166179406460848493097202890874282139253439655640563713

/-- Keccak round constants, in round order. -/
def keccakRC : List Nat :=
  (List.range 24).map fun i => (rcPacked >>> (64 * i)) &&& (two64 - 1)

/-- One Keccak-f round. -/
def keccakRound (s : List Nat) (rc : Nat) : List Nat :=
  match keccakChi (keccakRhoPi (keccakTheta s)) with
  | [] => []
  | h :: t => (h ^^^ rc) :: t

/-- The Keccak-f[1600] permutation (24 rounds). -/
def keccakF (s : List Nat) : List Nat := keccakRC.foldl keccakRound s

/-- Multi-rate padding with the given domain byte (`0x01` for legacy
Keccak, `0x06` for standardized SHA-3). -/
def keccakPad (rate : Nat) (domain : Nat) (m : List Nat) : List Nat :=
  let padLen := rate - m.length % rate
  if padLen = 1 then m ++ [domain + 0x80]
  else m ++ [domain] ++ List.replicate (padLen - 2) 0 ++ [0x80]

/-- A little-endian 8-byte group as a 64-bit lane. -/
def bytesToLane (l : List Nat) : Nat := l.foldr (fun b acc => b % 256 + 256 * acc) 0

/-- Absorb one 136-byte block into the state and permute. -/
def absorbBlock (s : List Nat) (block : List Nat) : List Nat :=
  keccakF ((List.range 25).map fun i =>
    (s.getD i 0) ^^^ bytesToLane ((block.drop (8 * i)).take 8))

/-- The 8 little-endian bytes of a lane. -/
def laneBytes (x : Nat) : List Nat := (List.range 8).map fun i => (x >>> (8 * i)) % 256

/-- Keccak sponge with rate 136 and 32-byte output, parametrized by the
padding domain byte. -/
def keccakSponge (domain : Nat) (m : List Nat) : List Nat :=
  let padded := keccakPad 136 domain m
  let blocks := (List.range (padded.length / 136)).map fun i =>
    (padded.drop (136 * i)).take 136
  let final := blocks.foldl absorbBlock (List.replicate 25 0)
  ((List.range 4).map fun i => laneBytes (final.getD i 0)).flatten

/-- Legacy Keccak-256 (domain byte `0x01`): the hash the code computes via
`rhash_keccak_final`. -/
def keccak256 (m : List Nat) : List Nat := keccakSponge 0x01 m

/-- Standardized SHA3-256 (domain byte `0x06`): the hash the code does
*not* compute. -/
def sha3_256 (m : List Nat) : List Nat := keccakSponge 0x06 m

/-! ## The signing pipeline -/

/-- The wire request `ETHSignMessageRequest`: coin id, derivation keypath,
and the payload bytes (`msg.bytes[0 .. msg.size)`). -/
structure ETHSignMessageRequest where
  coin : Nat
  keypath : List Nat
  msg : List Nat
deriving DecidableEq, Repr

/-- `confirm_params_t`: title and body shown to the user. -/
structure ConfirmParams where
  title : List Nat
  body : List Nat
  scrollable : Bool
deriving DecidableEq, Repr

/-- The external collaborators of the pipeline: address derivation,
the blocking user-confirmation workflow, and the keystore signer
(returning a 64-byte compact signature and an `int` recovery id). -/
structure Env where
  app_eth_address : Nat → List Nat → Option (List Nat)
  workflow_confirm : ConfirmParams → Bool
  keystore_secp256k1_sign : List Nat → List Nat → Option (List Nat × Int)

/-- Observable interactions of one run, in order. -/
inductive Event where
  | derive (coin : Nat) (keypath : List Nat)
  | confirm (params : ConfirmParams) (result : Bool)
  | hash (data : List Nat)
  | sign (keypath : List Nat) (digest : List Nat)
deriving DecidableEq, Repr

/-- `app_eth_sign_error_t`. -/
inductive AppEthSignError where
  | ok
  | invalidInput
  | userAbort
  | unknown
deriving DecidableEq, Repr

/-- How a run ends: a returned error code, or a defensive `Abort` of the
whole process. -/
inductive Outcome where
  | ret (e : AppEthSignError)
  | abortFault (msg : String)
deriving DecidableEq, Repr

/-- Result of one run: the outcome, the ordered interaction trace, and the
bytes written into `response->signature` (`none` while untouched). -/
structure RunResult where
  outcome : Outcome
  trace : List Event
  signature : Option (List Nat)
deriving DecidableEq, Repr

/-- Parameters of the identity confirmation
(`.title = "Your\naddress", .body = address, .scrollable = true`). -/
def identityParams (address : List Nat) : ConfirmParams :=
  { title := strBytes "Your\naddress", body := address, scrollable := true }

/-- Parameters of the content confirmation. -/
def contentParams (msg : List Nat) : ConfirmParams :=
  { title := titleOf msg, body := bodyOf msg, scrollable := true }

/-- `sizeof(response->signature)`: the protobuf response carries a fixed
65-byte signature field. -/
def signatureFieldSize : Nat := 65

/-- The byte stored by `response->signature[64] = (uint8_t)recid` (C
int-to-unsigned conversion is reduction mod 256). -/
def recidByte (recid : Int) : Nat := (recid % 256).toNat

/-- Shallow embedding of `app_eth_sign_msg`, following the C control flow
line by line. -/
def app_eth_sign_msg (env : Env) (request : ETHSignMessageRequest) : RunResult :=
  if request.msg.length > 1024 then
    { outcome := .ret .invalidInput, trace := [], signature := none }
  else if request.coin ≠ ETHCoin_ETH then
    { outcome := .ret .invalidInput, trace := [], signature := none }
  else
    match env.app_eth_address request.coin request.keypath with
    | none =>
      { outcome := .ret .invalidInput,
        trace := [.derive request.coin request.keypath], signature := none }
    | some address =>
      if env.workflow_confirm (identityParams address) then
        if env.workflow_confirm (contentParams request.msg) then
          let sighash := keccak256 (preimageOf request.msg)
          let tr := [.derive request.coin request.keypath,
                     .confirm (identityParams address) true,
                     .confirm (contentParams request.msg) true,
                     .hash (preimageOf request.msg),
                     .sign request.keypath sighash]
          if signatureFieldSize ≠ 65 then
            { outcome := .abortFault "unexpected signature size",
              trace := tr.take 4, signature := none }
          else
            match env.keystore_secp256k1_sign request.keypath sighash with
            | none => { outcome := .ret .unknown, trace := tr, signature := none }
            | some (sig, recid) =>
              if recid > 0xFF then
                { outcome := .abortFault "unexpected recid", trace := tr,
                  signature := some sig }
              else
                { outcome := .ret .ok, trace := tr,
                  signature := some (sig ++ [recidByte recid]) }
        else
          { outcome := .ret .userAbort,
            trace := [.derive request.coin request.keypath,
                      .confirm (identityParams address) true,
                      .confirm (contentParams request.msg) false],
            signature := none }
      else
        { outcome := .ret .userAbort,
          trace := [.derive request.coin request.keypath,
                    .confirm (identityParams address) false],
          signature := none }

/-- Does the trace contain a confirmation that returned `false`? -/
def hasConfirmFalse (t : List Event) : Bool :=
  t.any fun e => match e with
    | .confirm _ false => true
    | _ => false

/-- Does the trace contain a keystore signing call? -/
def hasSign (t : List Event) : Bool :=
  t.any fun e => match e with
    | .sign _ _ => true
    | _ => false

/-- Does the trace contain a digest computation? -/
def hasHash (t : List Event) : Bool :=
  t.any fun e => match e with
    | .hash _ => true
    | _ => false

/-- Does the trace contain any confirmation prompt? -/
def hasConfirm (t : List Event) : Bool :=
  t.any fun e => match e with
    | .confirm _ _ => true
    | _ => false

/-- The results of the confirmation prompts of a trace, in order. -/
def confirmResults (t : List Event) : List Bool :=
  t.filterMap fun e => match e with
    | .confirm _ b => some b
    | _ => none

/-- The full trace of a run that reaches the keystore. -/
def signTrace (req : ETHSignMessageRequest) (address : List Nat) : List Event :=
  [.derive req.coin req.keypath,
   .confirm (identityParams address) true,
   .confirm (contentParams req.msg) true,
   .hash (preimageOf req.msg),
   .sign req.keypath (keccak256 (preimageOf req.msg))]

/-! ### Concrete environments and requests (for instantiations) -/

/-- A sample derived address. -/
def addrSample : List Nat := strBytes "0x1F4E"

/-- A sample keypath (m/44'/60'/0'/0/0). -/
def kpSample : List Nat := [2147483692, 2147483708, 2147483648, 0, 0]

/-- An environment in which derivation succeeds, the user approves both
prompts, and the keystore signs with recovery id 1. -/
def envApprove : Env :=
  { app_eth_address := fun _ _ => some addrSample,
    workflow_confirm := fun _ => true,
    keystore_secp256k1_sign := fun _ _ => some (List.replicate 64 7, 1) }

/-- An environment in which the user rejects the identity prompt. -/
def envDenyIdentity : Env :=
  { envApprove with workflow_confirm := fun _ => false }

/-- An environment in which the user approves the identity prompt and
rejects the content prompt. -/
def envDenyContent : Env :=
  { envApprove with
    workflow_confirm := fun p => p.title == strBytes "Your\naddress" }

/-- An environment in which address derivation fails. -/
def envDeriveFail : Env :=
  { envApprove with app_eth_address := fun _ _ => none }

/-- An environment in which the keystore refuses to sign. -/
def envSignFail : Env :=
  { envApprove with keystore_secp256k1_sign := fun _ _ => none }

/-- An environment in which the keystore misbehaves and reports the
negative recovery id `-1`. -/
def envNegRecid : Env :=
  { envApprove with
    keystore_secp256k1_sign := fun _ _ => some (List.replicate 64 7, -1) }

/-- An environment in which the keystore misbehaves and reports the
recovery id `256`, too large for one byte. -/
def envBigRecid : Env :=
  { envApprove with
    keystore_secp256k1_sign := fun _ _ => some (List.replicate 64 7, 256) }

/-- The 5-byte printable request `"hello"` on the supported coin. -/
def reqHello : ETHSignMessageRequest :=
  { coin := ETHCoin_ETH, keypath := kpSample, msg := strBytes "hello" }

/-- A request with an empty payload. -/
def reqEmpty : ETHSignMessageRequest :=
  { coin := ETHCoin_ETH, keypath := kpSample, msg := [] }

/-- An oversized request (1025 bytes). -/
def reqOversize : ETHSignMessageRequest :=
  { coin := ETHCoin_ETH, keypath := kpSample, msg := List.replicate 1025 97 }

/-- A request for an unsupported coin (`ETHCoin_RopstenETH` = 1). -/
def reqBadCoin : ETHSignMessageRequest :=
  { coin := 1, keypath := kpSample, msg := strBytes "hello" }

/-! ## Branch lemmas -/

theorem run_oversize (env : Env) (req : ETHSignMessageRequest)
    (h1 : req.msg.length > 1024) :
    app_eth_sign_msg env req =
      { outcome := .ret .invalidInput, trace := [], signature := none } := by
  simp [app_eth_sign_msg, h1]

theorem run_badcoin (env : Env) (req : ETHSignMessageRequest)
    (h1 : ¬ req.msg.length > 1024) (h2 : req.coin ≠ ETHCoin_ETH) :
    app_eth_sign_msg env req =
      { outcome := .ret .invalidInput, trace := [], signature := none } := by
  simp [app_eth_sign_msg, h1, h2]

theorem run_derive_none (env : Env) (req : ETHSignMessageRequest)
    (h1 : ¬ req.msg.length > 1024) (h2 : req.coin = ETHCoin_ETH)
    (h3 : env.app_eth_address req.coin req.keypath = none) :
    app_eth_sign_msg env req =
      { outcome := .ret .invalidInput,
        trace := [.derive req.coin req.keypath], signature := none } := by
  have h3a : env.app_eth_address ETHCoin_ETH req.keypath = none := h2 ▸ h3
  simp [app_eth_sign_msg, h1, h2, h3a]

theorem run_confirm1_false (env : Env) (req : ETHSignMessageRequest)
    (a : List Nat)
    (h1 : ¬ req.msg.length > 1024) (h2 : req.coin = ETHCoin_ETH)
    (h3 : env.app_eth_address req.coin req.keypath = some a)
    (h4 : env.workflow_confirm (identityParams a) = false) :
    app_eth_sign_msg env req =
      { outcome := .ret .userAbort,
        trace := [.derive req.coin req.keypath, .confirm (identityParams a) false],
        signature := none } := by
  have h3a : env.app_eth_address ETHCoin_ETH req.keypath = some a := h2 ▸ h3
  simp [app_eth_sign_msg, h1, h2, h3a, h4]

theorem run_confirm2_false (env : Env) (req : ETHSignMessageRequest)
    (a : List Nat)
    (h1 : ¬ req.msg.length > 1024) (h2 : req.coin = ETHCoin_ETH)
    (h3 : env.app_eth_address req.coin req.keypath = some a)
    (h4 : env.workflow_confirm (identityParams a) = true)
    (h5 : env.workflow_confirm (contentParams req.msg) = false) :
    app_eth_sign_msg env req =
      { outcome := .ret .userAbort,
        trace := [.derive req.coin req.keypath, .confirm (identityParams a) true,
                  .confirm (contentParams req.msg) false],
        signature := none } := by
  have h3a : env.app_eth_address ETHCoin_ETH req.keypath = some a := h2 ▸ h3
  simp [app_eth_sign_msg, h1, h2, h3a, h4, h5]

theorem run_sign_none (env : Env) (req : ETHSignMessageRequest)
    (a : List Nat)
    (h1 : ¬ req.msg.length > 1024) (h2 : req.coin = ETHCoin_ETH)
    (h3 : env.app_eth_address req.coin req.keypath = some a)
    (h4 : env.workflow_confirm (identityParams a) = true)
    (h5 : env.workflow_confirm (contentParams req.msg) = true)
    (h6 : env.keystore_secp256k1_sign req.keypath (keccak256 (preimageOf req.msg))
            = none) :
    app_eth_sign_msg env req =
      { outcome := .ret .unknown, trace := signTrace req a, signature := none } := by
  have h3a : env.app_eth_address ETHCoin_ETH req.keypath = some a := h2 ▸ h3
  simp [app_eth_sign_msg, signTrace, signatureFieldSize, h1, h2, h3a, h4, h5, h6]

theorem run_sign_bigrecid (env : Env) (req : ETHSignMessageRequest)
    (a sig : List Nat) (recid : Int)
    (h1 : ¬ req.msg.length > 1024) (h2 : req.coin = ETHCoin_ETH)
    (h3 : env.app_eth_address req.coin req.keypath = some a)
    (h4 : env.workflow_confirm (identityParams a) = true)
    (h5 : env.workflow_confirm (contentParams req.msg) = true)
    (h6 : env.keystore_secp256k1_sign req.keypath (keccak256 (preimageOf req.msg))
            = some (sig, recid))
    (h7 : recid > 255) :
    app_eth_sign_msg env req =
      { outcome := .abortFault "unexpected recid", trace := signTrace req a,
        signature := some sig } := by
  have h3a : env.app_eth_address ETHCoin_ETH req.keypath = some a := h2 ▸ h3
  simp [app_eth_sign_msg, signTrace, signatureFieldSize, h1, h2, h3a, h4, h5, h6, h7]

theorem run_sign_ok (env : Env) (req : ETHSignMessageRequest)
    (a sig : List Nat) (recid : Int)
    (h1 : ¬ req.msg.length > 1024) (h2 : req.coin = ETHCoin_ETH)
    (h3 : env.app_eth_address req.coin req.keypath = some a)
    (h4 : env.workflow_confirm (identityParams a) = true)
    (h5 : env.workflow_confirm (contentParams req.msg) = true)
    (h6 : env.keystore_secp256k1_sign req.keypath (keccak256 (preimageOf req.msg))
            = some (sig, recid))
    (h7 : ¬ recid > 255) :
    app_eth_sign_msg env req =
      { outcome := .ret .ok, trace := signTrace req a,
        signature := some (sig ++ [recidByte recid]) } := by
  have h3a : env.app_eth_address ETHCoin_ETH req.keypath = some a := h2 ▸ h3
  simp [app_eth_sign_msg, signTrace, signatureFieldSize, h1, h2, h3a, h4, h5, h6, h7]

/-- Exhaustive case analysis of a run: one disjunct per C control path. -/
theorem run_branches (env : Env) (req : ETHSignMessageRequest) :
    (req.msg.length > 1024 ∧ app_eth_sign_msg env req =
      { outcome := .ret .invalidInput, trace := [], signature := none })
  ∨ (req.msg.length ≤ 1024 ∧ req.coin ≠ ETHCoin_ETH ∧ app_eth_sign_msg env req =
      { outcome := .ret .invalidInput, trace := [], signature := none })
  ∨ (req.msg.length ≤ 1024 ∧ req.coin = ETHCoin_ETH ∧
      env.app_eth_address req.coin req.keypath = none ∧ app_eth_sign_msg env req =
      { outcome := .ret .invalidInput,
        trace := [.derive req.coin req.keypath], signature := none })
  ∨ (∃ a, req.msg.length ≤ 1024 ∧ req.coin = ETHCoin_ETH ∧
      env.app_eth_address req.coin req.keypath = some a ∧
      env.workflow_confirm (identityParams a) = false ∧ app_eth_sign_msg env req =
      { outcome := .ret .userAbort,
        trace := [.derive req.coin req.keypath, .confirm (identityParams a) false],
        signature := none })
  ∨ (∃ a, req.msg.length ≤ 1024 ∧ req.coin = ETHCoin_ETH ∧
      env.app_eth_address req.coin req.keypath = some a ∧
      env.workflow_confirm (identityParams a) = true ∧
      env.workflow_confirm (contentParams req.msg) = false ∧ app_eth_sign_msg env req =
      { outcome := .ret .userAbort,
        trace := [.derive req.coin req.keypath, .confirm (identityParams a) true,
                  .confirm (contentParams req.msg) false],
        signature := none })
  ∨ (∃ a, req.msg.length ≤ 1024 ∧ req.coin = ETHCoin_ETH ∧
      env.app_eth_address req.coin req.keypath = some a ∧
      env.workflow_confirm (identityParams a) = true ∧
      env.workflow_confirm (contentParams req.msg) = true ∧
      env.keystore_secp256k1_sign req.keypath (keccak256 (preimageOf req.msg)) = none ∧
      app_eth_sign_msg env req =
      { outcome := .ret .unknown, trace := signTrace req a, signature := none })
  ∨ (∃ a sig recid, req.msg.length ≤ 1024 ∧ req.coin = ETHCoin_ETH ∧
      env.app_eth_address req.coin req.keypath = some a ∧
      env.workflow_confirm (identityParams a) = true ∧
      env.workflow_confirm (contentParams req.msg) = true ∧
      env.keystore_secp256k1_sign req.keypath (keccak256 (preimageOf req.msg))
        = some (sig, recid) ∧ recid > 255 ∧
      app_eth_sign_msg env req =
      { outcome := .abortFault "unexpected recid", trace := signTrace req a,
        signature := some sig })
  ∨ (∃ a sig recid, req.msg.length ≤ 1024 ∧ req.coin = ETHCoin_ETH ∧
      env.app_eth_address req.coin req.keypath = some a ∧
      env.workflow_confirm (identityParams a) = true ∧
      env.workflow_confirm (contentParams req.msg) = true ∧
      env.keystore_secp256k1_sign req.keypath (keccak256 (preimageOf req.msg))
        = some (sig, recid) ∧ recid ≤ 255 ∧
      app_eth_sign_msg env req =
      { outcome := .ret .ok, trace := signTrace req a,
        signature := some (sig ++ [recidByte recid]) }) := by
  by_cases h1 : req.msg.length > 1024
  · exact Or.inl ⟨h1, run_oversize env req h1⟩
  by_cases h2 : req.coin = ETHCoin_ETH
  case neg =>
    exact Or.inr (Or.inl ⟨by omega, h2, run_badcoin env req h1 h2⟩)
  rcases Option.eq_none_or_eq_some (env.app_eth_address req.coin req.keypath) with
    h3 | ⟨a, h3⟩
  · exact Or.inr (Or.inr (Or.inl ⟨by omega, h2, h3, run_derive_none env req h1 h2 h3⟩))
  by_cases h4 : env.workflow_confirm (identityParams a) = true
  case neg =>
    have h4f : env.workflow_confirm (identityParams a) = false := by
      simpa using h4
    exact Or.inr (Or.inr (Or.inr (Or.inl
      ⟨a, by omega, h2, h3, h4f, run_confirm1_false env req a h1 h2 h3 h4f⟩)))
  by_cases h5 : env.workflow_confirm (contentParams req.msg) = true
  case neg =>
    have h5f : env.workflow_confirm (contentParams req.msg) = false := by
      simpa using h5
    exact Or.inr (Or.inr (Or.inr (Or.inr (Or.inl
      ⟨a, by omega, h2, h3, h4, h5f, run_confirm2_false env req a h1 h2 h3 h4 h5f⟩))))
  rcases Option.eq_none_or_eq_some
      (env.keystore_secp256k1_sign req.keypath (keccak256 (preimageOf req.msg))) with
    h6 | ⟨⟨sig, recid⟩, h6⟩
  · exact Or.inr (Or.inr (Or.inr (Or.inr (Or.inr (Or.inl
      ⟨a, by omega, h2, h3, h4, h5, h6, run_sign_none env req a h1 h2 h3 h4 h5 h6⟩)))))
  by_cases h7 : recid > 255
  · exact Or.inr (Or.inr (Or.inr (Or.inr (Or.inr (Or.inr (Or.inl
      ⟨a, sig, recid, by omega, h2, h3, h4, h5, h6, h7,
        run_sign_bigrecid env req a sig recid h1 h2 h3 h4 h5 h6 h7⟩))))))
  · exact Or.inr (Or.inr (Or.inr (Or.inr (Or.inr (Or.inr (Or.inr
      ⟨a, sig, recid, by omega, h2, h3, h4, h5, h6, by omega,
        run_sign_ok env req a sig recid h1 h2 h3 h4 h5 h6 h7⟩))))))

/-! ## Helper lemmas about the builders -/

theorem decBytesAux_congr :
    ∀ (n f1 f2 : Nat), n < f1 → n < f2 → decBytesAux f1 n = decBytesAux f2 n := by
  intro n
  induction n using Nat.strong_induction_on with
  | _ n ih =>
    intro f1 f2 h1 h2
    match f1, f2 with
    | g1 + 1, g2 + 1 =>
      simp only [decBytesAux]
      by_cases h : n < 10
      · simp [h]
      · simp only [h, if_false]
        have hd : n / 10 < n := Nat.div_lt_self (by omega) (by omega)
        rw [ih (n / 10) hd g1 g2 (by omega) (by omega)]

theorem decBytes_eq (n : Nat) :
    decBytes n = if n < 10 then [48 + n] else decBytes (n / 10) ++ [48 + n % 10] := by
  have hstep : decBytesAux (n + 1) n
      = if n < 10 then [48 + n] else decBytesAux n (n / 10) ++ [48 + n % 10] := rfl
  rw [decBytes, hstep]
  by_cases h : n < 10
  · simp [h]
  · rw [if_neg h, if_neg h, decBytes]
    have hd : n / 10 < n := Nat.div_lt_self (by omega) (by omega)
    rw [decBytesAux_congr (n / 10) n (n / 10 + 1) (by omega) (by omega)]

theorem decBytes_len_le (k : Nat) : ∀ n, n < 10 ^ (k + 1) → (decBytes n).length ≤ k + 1 := by
  induction k with
  | zero =>
    intro n hn
    rw [decBytes_eq]
    simp [show n < 10 by omega]
  | succ k ih =>
    intro n hn
    rw [decBytes_eq]
    by_cases h : n < 10
    · simp [h]
    · simp only [h, if_false, List.length_append, List.length_cons, List.length_nil]
      have : n / 10 < 10 ^ (k + 1) := by
        rw [Nat.div_lt_iff_lt_mul (by omega)]
        calc n < 10 ^ (k + 2) := hn
        _ = 10 ^ (k + 1) * 10 := by ring
      have := ih (n / 10) this
      omega

theorem msg_header_len : msg_header.length = 26 := by decide

theorem decBytes_pos (n : Nat) : 1 ≤ (decBytes n).length := by
  rw [decBytes_eq]
  by_cases h : n < 10 <;> simp [h]

theorem payload_offset_eq (size : Nat) :
    payload_offset size = 26 + (decBytes size).length := by
  rw [payload_offset, msg_header_len]

theorem preimage_len (msg : List Nat) :
    (preimageOf msg).length = payload_offset msg.length + msg.length := by
  simp [preimageOf, payload_offset]
  omega

theorem payload_offset_le (size : Nat) (h : size ≤ 1024) : payload_offset size ≤ 30 := by
  have := decBytes_len_le 3 size (by omega)
  rw [payload_offset_eq]
  omega

theorem hex_len (l : List Nat) : (util_uint8_to_hex l).length = 2 * l.length := by
  induction l with
  | nil => simp [util_uint8_to_hex]
  | cons b t ih =>
    simp [util_uint8_to_hex, byteToHexChars] at *
    omega

theorem ascii_step (acc : Bool) (b : Nat) :
    (if b < 20 || 127 < b then false else acc)
      = (acc && (!(decide (b < 20) || decide (127 < b)))) := by
  cases acc <;> by_cases h1 : b < 20 <;> by_cases h2 : 127 < b <;> simp [h1, h2]

theorem all_ascii_eq_all (msg : List Nat) :
    all_ascii msg = msg.all fun b => !(decide (b < 20) || decide (127 < b)) := by
  have key : ∀ (l : List Nat) (acc : Bool),
      l.foldl (fun acc b => if b < 20 || 127 < b then false else acc) acc
        = (acc && l.all fun b => !(decide (b < 20) || decide (127 < b))) := by
    intro l
    induction l with
    | nil => simp
    | cons b t ih =>
      intro acc
      rw [List.foldl_cons, ascii_step, ih, List.all_cons, Bool.and_assoc]
  rw [all_ascii, key]
  simp

theorem all_ascii_iff (msg : List Nat) :
    all_ascii msg = true ↔ ∀ b ∈ msg, 20 ≤ b ∧ b ≤ 127 := by
  rw [all_ascii_eq_all, List.all_eq_true]
  constructor
  · intro h b hb
    have := h b hb
    simp at this
    omega
  · intro h b hb
    have := h b hb
    simp
    omega

theorem body_len_le (msg : List Nat) : (bodyOf msg).length ≤ 67 := by
  rw [bodyOf]
  by_cases h1 : all_ascii msg = true ∧ msg.length > 67
  · rw [if_pos h1]
    simp [ellipsisBytes]
    omega
  · rw [if_neg h1]
    by_cases h2 : all_ascii msg = false ∧ msg.length > 33
    · rw [if_pos h2]
      simp [ellipsisBytes, hex_len]
      omega
    · rw [if_neg h2]
      by_cases h3 : all_ascii msg = true
      · rw [if_pos h3]
        have : ¬ msg.length > 67 := fun hgt => h1 ⟨h3, hgt⟩
        omega
      · rw [if_neg h3]
        have hf : all_ascii msg = false := by
          simpa using h3
        have : ¬ msg.length > 33 := fun hgt => h2 ⟨hf, hgt⟩
        rw [hex_len]
        omega

/-! ## Claim theorems -/

theorem laneBytes_len (x : Nat) : (laneBytes x).length = 8 := by
  simp [laneBytes]

theorem keccak256_len (m : List Nat) : (keccak256 m).length = 32 := by
  simp [keccak256, keccakSponge, laneBytes, Function.comp_def]

theorem oversize_len : reqOversize.msg.length > 1024 := by
  simp [reqOversize]

/-- Claim C1: if either the identity or the content confirmation returns false,
`app_eth_sign_msg` returns `UserAbort` immediately (the failing prompt is the
last recorded interaction), the Keccak digest is never computed and
`keystore_secp256k1_sign` is never invoked; conversely, a keystore signing
event occurs only in runs whose two confirmations both returned `true`. -/
theorem c1_confirm_gates (env : Env) (req : ETHSignMessageRequest) :
    (hasConfirmFalse (app_eth_sign_msg env req).trace = true →
      (app_eth_sign_msg env req).outcome = .ret .userAbort ∧
      hasHash (app_eth_sign_msg env req).trace = false ∧
      hasSign (app_eth_sign_msg env req).trace = false ∧
      (confirmResults (app_eth_sign_msg env req).trace = [false] ∨
       confirmResults (app_eth_sign_msg env req).trace = [true, false]))
  ∧ (hasSign (app_eth_sign_msg env req).trace = true →
      confirmResults (app_eth_sign_msg env req).trace = [true, true]) := by
  rcases run_branches env req with ⟨_, hR⟩ | ⟨_, _, hR⟩ | ⟨_, _, _, hR⟩ |
    ⟨a, _, _, _, _, hR⟩ | ⟨a, _, _, _, _, _, hR⟩ | ⟨a, _, _, _, _, _, _, hR⟩ |
    ⟨a, s, r, _, _, _, _, _, _, _, hR⟩ | ⟨a, s, r, _, _, _, _, _, _, _, hR⟩ <;>
    rw [hR] <;>
    simp [hasConfirmFalse, hasHash, hasSign, confirmResults, signTrace]

theorem c1_confirm_gates_witness :
    (app_eth_sign_msg envDenyContent reqHello).outcome = .ret .userAbort ∧
    hasSign (app_eth_sign_msg envDenyContent reqHello).trace = false := by
  have h := (c1_confirm_gates envDenyContent reqHello).1 (by decide)
  exact ⟨h.1, h.2.2.1⟩

/-- Claim C2: oversized payloads (`msg.size > 1024`), a coin other than
`ETHCoin_ETH`, and failed address derivation each produce `InvalidInput` with
no confirmation prompt and no keystore call; the size check precedes the coin
check (an oversized request exits with an empty trace whatever its coin), and
both precede the derivation call (a bad-coin request exits before any `derive`
event). -/
theorem c2_validation (env : Env) (req : ETHSignMessageRequest) :
    (req.msg.length > 1024 → app_eth_sign_msg env req =
      { outcome := .ret .invalidInput, trace := [], signature := none })
  ∧ (req.msg.length ≤ 1024 → req.coin ≠ ETHCoin_ETH → app_eth_sign_msg env req =
      { outcome := .ret .invalidInput, trace := [], signature := none })
  ∧ (req.msg.length ≤ 1024 → req.coin = ETHCoin_ETH →
      env.app_eth_address req.coin req.keypath = none → app_eth_sign_msg env req =
      { outcome := .ret .invalidInput,
        trace := [.derive req.coin req.keypath], signature := none })
  ∧ ((app_eth_sign_msg env req).outcome = .ret .invalidInput →
      hasConfirm (app_eth_sign_msg env req).trace = false ∧
      hasSign (app_eth_sign_msg env req).trace = false) := by
  refine ⟨fun h1 => run_oversize env req h1,
          fun h1 h2 => run_badcoin env req (by omega) h2,
          fun h1 h2 h3 => run_derive_none env req (by omega) h2 h3, ?_⟩
  rcases run_branches env req with ⟨_, hR⟩ | ⟨_, _, hR⟩ | ⟨_, _, _, hR⟩ |
    ⟨a, _, _, _, _, hR⟩ | ⟨a, _, _, _, _, _, hR⟩ | ⟨a, _, _, _, _, _, _, hR⟩ |
    ⟨a, s, r, _, _, _, _, _, _, _, hR⟩ | ⟨a, s, r, _, _, _, _, _, _, _, hR⟩ <;>
    rw [hR] <;>
    simp [hasConfirm, hasSign, signTrace]

theorem c2_validation_witness :
    app_eth_sign_msg envApprove reqOversize =
      { outcome := .ret .invalidInput, trace := [], signature := none }
  ∧ app_eth_sign_msg envApprove reqBadCoin =
      { outcome := .ret .invalidInput, trace := [], signature := none }
  ∧ app_eth_sign_msg envDeriveFail reqHello =
      { outcome := .ret .invalidInput,
        trace := [.derive reqHello.coin reqHello.keypath], signature := none } :=
  ⟨(c2_validation envApprove reqOversize).1 oversize_len,
   (c2_validation envApprove reqBadCoin).2.1 (by decide) (by decide),
   (c2_validation envDeriveFail reqHello).2.2.1 (by decide) (by decide) rfl⟩

/-- Claim C3: the preimage holds exactly
`0x19 ∥ "Ethereum Signed Message:\n" ∥ decimal(msg.size) ∥ msg`,
`payload_offset` is 26 plus the number of decimal digits of `msg.size`, the
used length is `payload_offset + msg.size`, and for the payload `"hello"` the
preimage is `0x19 ∥ "Ethereum Signed Message:\n" ∥ "5" ∥ "hello"` with
offset 27. -/
theorem c3_preimage (msg : List Nat) :
    preimageOf msg = msg_header ++ decBytes msg.length ++ msg
  ∧ payload_offset msg.length = 26 + (decBytes msg.length).length
  ∧ (preimageOf msg).length = payload_offset msg.length + msg.length
  ∧ preimageOf (strBytes "hello") =
      0x19 :: (strBytes "Ethereum Signed Message:\n" ++ strBytes "5" ++
               strBytes "hello")
  ∧ payload_offset (strBytes "hello").length = 27 :=
  ⟨rfl, payload_offset_eq msg.length, preimage_len msg, by decide, by decide⟩

/-- Claim C4: for every `msg.size ≤ 1024` the preimage writes (the
`payload_offset + msg.size` content bytes as well as the `snprintf`
terminator) stay within the declared 26 + 1024 + 4 byte capacity, and for
every payload whatsoever the summary body content plus its null terminator
fits the fixed 68-byte body buffer. -/
theorem c4_bounds (msg : List Nat) :
    (msg.length ≤ 1024 →
      payload_offset msg.length + msg.length ≤ msgBufCapacity ∧
      payload_offset msg.length + 1 ≤ msgBufCapacity)
  ∧ (bodyOf msg).length + 1 ≤ bodyBufCapacity := by
  constructor
  · intro h
    have := payload_offset_le msg.length h
    rw [msgBufCapacity]
    omega
  · have := body_len_le msg
    rw [bodyBufCapacity]
    omega

theorem c4_bounds_witness :
    (payload_offset (strBytes "hello").length + (strBytes "hello").length ≤
      msgBufCapacity)
  ∧ (bodyOf (strBytes "hello")).length + 1 ≤ bodyBufCapacity :=
  ⟨((c4_bounds (strBytes "hello")).1 (by decide)).1, (c4_bounds (strBytes "hello")).2⟩

/-- Claim C5: every digest computation of a run hashes exactly the
`payload_offset + msg.size` used bytes of the preimage buffer (never the full
capacity), the digest handed to the keystore is the Keccak-256 of those bytes,
Keccak-256 output is always exactly 32 bytes with no error path, and the
legacy Keccak finalization (domain byte 0x01, `rhash_keccak_final`) differs
from the standardized SHA3-256 finalization (domain byte 0x06) already on the
`"hello"` preimage. -/
theorem c5_hash (env : Env) (req : ETHSignMessageRequest) (m : List Nat) :
    (∀ d, Event.hash d ∈ (app_eth_sign_msg env req).trace →
      d = preimageOf req.msg ∧
      d.length = payload_offset req.msg.length + req.msg.length)
  ∧ (∀ kp d, Event.sign kp d ∈ (app_eth_sign_msg env req).trace →
      d = keccak256 (preimageOf req.msg))
  ∧ (keccak256 m).length = 32
  ∧ keccak256 (preimageOf (strBytes "hello")) ≠
      sha3_256 (preimageOf (strBytes "hello")) := by
  refine ⟨?_, ?_, keccak256_len m, by decide⟩ <;>
  · rcases run_branches env req with ⟨_, hR⟩ | ⟨_, _, hR⟩ | ⟨_, _, _, hR⟩ |
      ⟨a, _, _, _, _, hR⟩ | ⟨a, _, _, _, _, _, hR⟩ | ⟨a, _, _, _, _, _, _, hR⟩ |
      ⟨a, s, r, _, _, _, _, _, _, _, hR⟩ | ⟨a, s, r, _, _, _, _, _, _, _, hR⟩ <;>
      rw [hR] <;>
      simp [signTrace] <;>
      exact preimage_len req.msg

theorem c5_hash_witness :
    (preimageOf reqHello.msg).length =
      payload_offset reqHello.msg.length + reqHello.msg.length
  ∧ keccak256 (preimageOf (strBytes "hello")) ≠
      sha3_256 (preimageOf (strBytes "hello")) :=
  ⟨((c5_hash envApprove reqHello []).1 (preimageOf reqHello.msg) (by decide)).2,
   (c5_hash envApprove reqHello []).2.2.2⟩

theorem recidByte_lt (recid : Int) : recidByte recid < 256 := by
  rw [recidByte]
  have h1 : 0 ≤ recid % 256 := Int.emod_nonneg recid (by omega)
  have h2 : recid % 256 < 256 := Int.emod_lt_of_pos recid (by omega)
  omega

/-- Claim C6, counterexample: a keystore that reports the recovery id `-1` —
a value outside the one-byte range `[0, 255]` — does not trigger the abort:
the `recid > 0xFF` guard misses it, the run returns `Ok`, and the truncated
byte 255 is stored as the final signature byte. -/
theorem c6_counterexample :
    envNegRecid.keystore_secp256k1_sign reqHello.keypath
        (keccak256 (preimageOf reqHello.msg)) = some (List.replicate 64 7, -1)
  ∧ ¬(0 ≤ (-1 : Int) ∧ (-1 : Int) ≤ 255)
  ∧ (app_eth_sign_msg envNegRecid reqHello).outcome = .ret .ok
  ∧ (app_eth_sign_msg envNegRecid reqHello).signature =
      some (List.replicate 64 7 ++ [255]) :=
  ⟨rfl, by decide, by decide, by decide⟩

/-- Claim C6 (amended): whenever the keystore signing call happens and
reports recovery id `recid`, the run aborts the process exactly when
`recid > 0xFF`; on a normal `Ok` return `recid ≤ 0xFF` holds and the stored
byte `(uint8_t)recid` fits one byte. (Recovery ids below zero are not
detected by the guard, see the counterexample.) -/
theorem c6_recid_guard (env : Env) (req : ETHSignMessageRequest)
    (sig : List Nat) (recid : Int)
    (hs : hasSign (app_eth_sign_msg env req).trace = true)
    (hk : env.keystore_secp256k1_sign req.keypath (keccak256 (preimageOf req.msg))
            = some (sig, recid)) :
    (recid > 255 ↔
      (app_eth_sign_msg env req).outcome = .abortFault "unexpected recid")
  ∧ ((app_eth_sign_msg env req).outcome = .ret .ok →
      recid ≤ 255 ∧
      (app_eth_sign_msg env req).signature = some (sig ++ [recidByte recid]) ∧
      recidByte recid < 256) := by
  rcases run_branches env req with ⟨_, hR⟩ | ⟨_, _, hR⟩ | ⟨_, _, _, hR⟩ |
    ⟨a, _, _, _, _, hR⟩ | ⟨a, _, _, _, _, _, hR⟩ | ⟨a, _, _, _, _, _, h6, hR⟩ |
    ⟨a, s, r, _, _, _, _, _, h6, h7, hR⟩ | ⟨a, s, r, _, _, _, _, _, h6, h7, hR⟩
  · rw [hR] at hs; simp [hasSign] at hs
  · rw [hR] at hs; simp [hasSign] at hs
  · rw [hR] at hs; simp [hasSign] at hs
  · rw [hR] at hs; simp [hasSign] at hs
  · rw [hR] at hs; simp [hasSign] at hs
  · rw [h6] at hk; exact absurd hk (by simp)
  · rw [h6] at hk
    simp only [Option.some.injEq, Prod.mk.injEq] at hk
    obtain ⟨hsig, hrec⟩ := hk
    subst hsig; subst hrec
    rw [hR]
    exact ⟨by simp [h7], by simp⟩
  · rw [h6] at hk
    simp only [Option.some.injEq, Prod.mk.injEq] at hk
    obtain ⟨hsig, hrec⟩ := hk
    subst hsig; subst hrec
    rw [hR]
    refine ⟨by simp; omega, fun _ => ⟨h7, by simp, recidByte_lt _⟩⟩

theorem c6_recid_guard_witness :
    ((256 : Int) > 255 ↔
      (app_eth_sign_msg envBigRecid reqHello).outcome =
        .abortFault "unexpected recid")
  ∧ ((app_eth_sign_msg envBigRecid reqHello).outcome = .ret .ok →
      (256 : Int) ≤ 255 ∧
      (app_eth_sign_msg envBigRecid reqHello).signature =
        some (List.replicate 64 7 ++ [recidByte 256]) ∧
      recidByte 256 < 256) :=
  c6_recid_guard envBigRecid reqHello (List.replicate 64 7) 256 (by decide) rfl

/-- Claim C7: the payload is classified printable exactly when every byte
lies in `[20, 127]`; the content body is the payload verbatim (printable,
length ≤ 67), first 32 bytes ∥ 3-character ellipsis ∥ last 32 bytes
(printable, length > 67), the full payload hex-encoded (binary, length ≤ 33),
or hex of the first 16 ∥ ellipsis ∥ hex of the last 16 (binary, length > 33);
the title carries the `"(hex)"` suffix exactly in the binary case, and the
body plus its terminator fits the fixed buffer. -/
theorem c7_summary (msg : List Nat) :
    (all_ascii msg = true ↔ ∀ b ∈ msg, 20 ≤ b ∧ b ≤ 127)
  ∧ (all_ascii msg = true → msg.length ≤ 67 → bodyOf msg = msg)
  ∧ (all_ascii msg = true → msg.length > 67 →
      bodyOf msg = msg.take 32 ++ ellipsisBytes ++ msg.drop (msg.length - 32))
  ∧ (all_ascii msg = false → msg.length ≤ 33 → bodyOf msg = util_uint8_to_hex msg)
  ∧ (all_ascii msg = false → msg.length > 33 →
      bodyOf msg = util_uint8_to_hex (msg.take 16) ++ ellipsisBytes ++
        util_uint8_to_hex (msg.drop (msg.length - 16)))
  ∧ ellipsisBytes.length = 3
  ∧ (titleOf msg = strBytes "Sign\nETH Message (hex)" ↔ all_ascii msg = false)
  ∧ (bodyOf msg).length + 1 ≤ bodyBufCapacity := by
  refine ⟨all_ascii_iff msg, ?_, ?_, ?_, ?_, by decide, ?_, ?_⟩
  · intro h hlen
    rw [bodyOf, if_neg (fun hc => by omega), if_neg (fun hc => by simp [h] at hc),
        if_pos h]
  · intro h hlen
    rw [bodyOf, if_pos ⟨h, hlen⟩]
  · intro h hlen
    rw [bodyOf, if_neg (fun hc => by simp [h] at hc),
        if_neg (fun hc => by omega), if_neg (by simp [h])]
  · intro h hlen
    rw [bodyOf, if_neg (fun hc => by simp [h] at hc), if_pos ⟨h, hlen⟩]
  · by_cases hA : all_ascii msg = true
    · rw [titleOf, if_pos hA, hA]
      simp only [iff_false, Bool.true_eq_false, ne_eq]
      decide
    · have hA2 : all_ascii msg = false := by simpa using hA
      rw [titleOf, if_neg hA, hA2]
      simp
  · have := body_len_le msg
    rw [bodyBufCapacity]
    omega

theorem c7_summary_witness :
    bodyOf (strBytes "hello") = strBytes "hello"
  ∧ titleOf (strBytes "hello") = strBytes "Sign\nETH Message" :=
  ⟨(c7_summary (strBytes "hello")).2.1 (by decide) (by decide),
   by
    have h := (c7_summary (strBytes "hello")).2.2.2.2.2.2.1
    decide⟩

/-- Claim C8: once validation has passed and both confirmations were
approved, the outcome is decided by the keystore call: a refusal yields
`Unknown` with the digest already computed (the trace contains the hash
event), a success yields `Ok` with the 65-byte signature holding the 64-byte
(r, s) value whose last byte equals the keystore recovery id byte. -/
theorem c8_outcome (env : Env) (req : ETHSignMessageRequest) (a : List Nat)
    (h1 : req.msg.length ≤ 1024) (h2 : req.coin = ETHCoin_ETH)
    (h3 : env.app_eth_address req.coin req.keypath = some a)
    (h4 : env.workflow_confirm (identityParams a) = true)
    (h5 : env.workflow_confirm (contentParams req.msg) = true) :
    (env.keystore_secp256k1_sign req.keypath (keccak256 (preimageOf req.msg))
        = none →
      app_eth_sign_msg env req =
        { outcome := .ret .unknown, trace := signTrace req a, signature := none } ∧
      hasHash (signTrace req a) = true)
  ∧ (∀ sig recid,
      env.keystore_secp256k1_sign req.keypath (keccak256 (preimageOf req.msg))
        = some (sig, recid) → recid ≤ 255 → sig.length = 64 →
      (app_eth_sign_msg env req).outcome = .ret .ok ∧
      (app_eth_sign_msg env req).signature = some (sig ++ [recidByte recid]) ∧
      (sig ++ [recidByte recid]).length = 65 ∧
      (sig ++ [recidByte recid]).getLast? = some (recidByte recid)) := by
  constructor
  · intro h6
    exact ⟨run_sign_none env req a (by omega) h2 h3 h4 h5 h6,
           by simp [hasHash, signTrace]⟩
  · intro sig recid h6 h7 h8
    rw [run_sign_ok env req a sig recid (by omega) h2 h3 h4 h5 h6 (by omega)]
    exact ⟨rfl, rfl, by simp [h8], by simp⟩

theorem c8_outcome_witness :
    (app_eth_sign_msg envApprove reqHello).outcome = .ret .ok ∧
    (app_eth_sign_msg envApprove reqHello).signature =
      some (List.replicate 64 7 ++ [recidByte 1]) ∧
    (List.replicate 64 7 ++ [recidByte 1]).length = 65 ∧
    (List.replicate 64 7 ++ [recidByte 1]).getLast? = some (recidByte 1) :=
  (c8_outcome envApprove reqHello addrSample (by decide) rfl rfl rfl rfl).2
    (List.replicate 64 7) 1 rfl (by decide) (by decide)

/-- Claim C9: on every `InvalidInput` or `UserAbort` return the response
signature is untouched (`none`), and indeed no keystore signing call has
happened in the run. -/
theorem c9_untouched (env : Env) (req : ETHSignMessageRequest)
    (h : (app_eth_sign_msg env req).outcome = .ret .invalidInput ∨
         (app_eth_sign_msg env req).outcome = .ret .userAbort) :
    (app_eth_sign_msg env req).signature = none ∧
    hasSign (app_eth_sign_msg env req).trace = false := by
  rcases run_branches env req with ⟨_, hR⟩ | ⟨_, _, hR⟩ | ⟨_, _, _, hR⟩ |
    ⟨a, _, _, _, _, hR⟩ | ⟨a, _, _, _, _, _, hR⟩ | ⟨a, _, _, _, _, _, _, hR⟩ |
    ⟨a, s, r, _, _, _, _, _, _, _, hR⟩ | ⟨a, s, r, _, _, _, _, _, _, _, hR⟩ <;>
    rw [hR] at h ⊢ <;>
    simp [hasSign, signTrace] at h ⊢

theorem c9_untouched_witness :
    (app_eth_sign_msg envDenyIdentity reqHello).signature = none ∧
    hasSign (app_eth_sign_msg envDenyIdentity reqHello).trace = false :=
  c9_untouched envDenyIdentity reqHello (Or.inr (by decide))

/-- Claim C10: an empty payload passes validation (such a request is only
rejected when derivation fails), its preimage is
`0x19 ∥ "Ethereum Signed Message:\n" ∥ "0"` with used length 27, the payload
is classified printable, the content body is the empty string, the plain
title is used, and a fully approving run returns `Ok`. -/
theorem c10_empty (env : Env) (kp : List Nat)
    (h : env.app_eth_address ETHCoin_ETH kp ≠ none) :
    (app_eth_sign_msg env { coin := ETHCoin_ETH, keypath := kp, msg := [] }).outcome
      ≠ .ret .invalidInput
  ∧ preimageOf [] = msg_header ++ strBytes "0"
  ∧ (preimageOf ([] : List Nat)).length = 27
  ∧ payload_offset 0 = 27
  ∧ all_ascii [] = true
  ∧ bodyOf [] = []
  ∧ titleOf [] = strBytes "Sign\nETH Message"
  ∧ (app_eth_sign_msg envApprove reqEmpty).outcome = .ret .ok := by
  refine ⟨?_, by rfl, by decide, by rfl, by decide, by rfl, by decide, by decide⟩
  rcases run_branches env { coin := ETHCoin_ETH, keypath := kp, msg := [] } with
    ⟨hl, hR⟩ | ⟨_, hc, hR⟩ | ⟨_, _, ha, hR⟩ | ⟨a, _, _, _, _, hR⟩ |
    ⟨a, _, _, _, _, _, hR⟩ | ⟨a, _, _, _, _, _, _, hR⟩ |
    ⟨a, s, r, _, _, _, _, _, _, _, hR⟩ | ⟨a, s, r, _, _, _, _, _, _, _, hR⟩
  · simp at hl
  · exact absurd rfl hc
  · exact absurd ha h
  · rw [hR]; simp
  · rw [hR]; simp
  · rw [hR]; simp
  · rw [hR]; simp
  · rw [hR]; simp

theorem c10_empty_witness :
    (app_eth_sign_msg envApprove
      { coin := ETHCoin_ETH, keypath := kpSample, msg := [] }).outcome
        ≠ .ret .invalidInput
  ∧ (app_eth_sign_msg envApprove reqEmpty).outcome = .ret .ok :=
  ⟨(c10_empty envApprove kpSample (by decide)).1,
   (c10_empty envApprove kpSample (by decide)).2.2.2.2.2.2.2⟩
